import Mathlib

/-!
Shallow embedding of the bill-matcher core (`backend/bill_processor.py`,
`backend/matcher.py`).  Python dict records are modelled as structures whose
fields are `Option`-valued: the outer `Option` is dict-key presence, and for
the string identity fields an inner `Option String` models a key stored with
Python `None` (as `_parse_json_items` can produce).  Python floats are
modelled as exact rationals `ℚ`; every numeric literal and comparison of the
source is reproduced over `ℚ`.  Each `re` pattern of the source is modelled
by a hand-written leftmost-search matcher over `List Char` that reproduces
the pattern's greedy/backtracking behaviour (ASCII case mapping).
-/

namespace BillMatcher

/-! Character classes of Python `re` (ASCII). -/

def lowerChar (c : Char) : Char := c.toLower

def isDigitChar (c : Char) : Bool := c.isDigit

def isAlphaChar (c : Char) : Bool := c.isAlpha

/-- Python regex `\w` (ASCII). -/
def isWordChar (c : Char) : Bool := c.isAlphanum || c = '_'

/-- Python regex `\s` (ASCII). -/
def isSpaceChar (c : Char) : Bool :=
  c = ' ' || c = '\t' || c = '\n' || c = '\r' || c = '\x0b' || c = '\x0c'

/-- Python `str.strip()`. -/
def stripChars (cs : List Char) : List Char :=
  ((cs.dropWhile isSpaceChar).reverse.dropWhile isSpaceChar).reverse

/-- Python `int` on a digit string. -/
def digitsToNat (cs : List Char) : Nat :=
  cs.foldl (fun n c => n * 10 + (c.toNat - 48)) 0

/-- Python `text.split('\n')`. -/
def splitLinesAux : List Char → List Char → List (List Char)
  | [], acc => [acc.reverse]
  | c :: rest, acc =>
    if c = '\n' then acc.reverse :: splitLinesAux rest []
    else splitLinesAux rest (c :: acc)

def splitLines (text : String) : List (List Char) := splitLinesAux text.toList []

/-- Python substring test `pat in s`. -/
def containsSub (pat : List Char) : List Char → Bool
  | [] => pat.isEmpty
  | c :: rest => pat.isPrefixOf (c :: rest) || containsSub pat rest

/-- Word boundary `\b` holds after a word character at this remainder. -/
def noWordNext : List Char → Bool
  | [] => true
  | c :: _ => !isWordChar c

/-- Consume a literal keyword case-insensitively (keyword given lowercased). -/
def dropPrefixCI : List Char → List Char → Option (List Char)
  | [], cs => some cs
  | _ :: _, [] => none
  | k :: ks, c :: cs => if lowerChar c = k then dropPrefixCI ks cs else none

/-- Regex `x?` for a literal character (greedy; safe here because in every
pattern below the follower can never consume this character). -/
def dropOptChar (ch : Char) : List Char → List Char
  | [] => []
  | c :: cs => if c = ch then cs else c :: cs

/-- Case-insensitive `x?` for a literal letter. -/
def dropOptCharCI (ch : Char) : List Char → List Char
  | [] => []
  | c :: cs => if lowerChar c = ch then cs else c :: cs

/-- Regex `\s*` (greedy; all followers below reject whitespace). -/
def dropSpaces (cs : List Char) : List Char := cs.dropWhile isSpaceChar

/-- Leftmost search: try the pattern matcher at every start position. -/
def scanOpt (f : List Char → Option (List Char)) : List Char → Option (List Char)
  | [] => none
  | c :: rest =>
    match f (c :: rest) with
    | some g => some g
    | none => scanOpt f rest

/-- Leftmost search for a pattern with a leading `\b` (tracks the previous
character; the first character of every such pattern is a word character). -/
def scanBound (f : List Char → Option (List Char)) : Option Char → List Char → Option (List Char)
  | _, [] => none
  | prev, c :: rest =>
    let ok := match prev with
      | none => true
      | some p => !isWordChar p
    match (if ok then f (c :: rest) else none) with
    | some g => some g
    | none => scanBound f (some c) rest

/-! Number grammar `\d+(?:,\d+)*(?:\.\d{2})?` shared by the price patterns. -/

/-- Greedy `(?:,\d+)*`, returning the comma groups and the remainder. -/
def commaGroups : Nat → List Char → (List (List Char) × List Char)
  | 0, cs => ([], cs)
  | fuel + 1, cs =>
    match cs with
    | ',' :: rest =>
      let d := rest.takeWhile isDigitChar
      if d.isEmpty then ([], cs)
      else
        let (gs, r) := commaGroups fuel (rest.dropWhile isDigitChar)
        ((',' :: d) :: gs, r)
    | _ => ([], cs)

/-- Greedy `(?:\.\d{2})?` (exactly two digits after the dot). -/
def dotPart : List Char → (List Char × List Char)
  | '.' :: a :: b :: rest =>
    if isDigitChar a && isDigitChar b then (['.', a, b], rest)
    else ([], '.' :: a :: b :: rest)
  | cs => ([], cs)

/-- Greedy match of the number grammar with no trailing constraint
(used by the currency/keyword price patterns). -/
def parseNUM (cs : List Char) : Option (List Char) :=
  let d := cs.takeWhile isDigitChar
  if d.isEmpty then none
  else
    let r := cs.dropWhile isDigitChar
    let (gs, r2) := commaGroups (r.length + 1) r
    let (dp, _) := dotPart r2
    some (d ++ gs.flatten ++ dp)

/-- Python `float(group.replace(',', ''))` on a match of the number grammar:
the value is `intpart + fracpart / 100` (the grammar fixes two fraction
digits), built with `mkRat` so that it evaluates. -/
def numValue (g : List Char) : ℚ :=
  let cs := g.filter (fun c => c ≠ ',')
  let ip := cs.takeWhile isDigitChar
  match cs.dropWhile isDigitChar with
  | '.' :: fr => mkRat (digitsToNat ip * 100 + digitsToNat fr) 100
  | _ => (digitsToNat ip : ℚ)

/-! Price patterns of `BillProcessor.price_patterns` and the bare-number
fallback of `_extract_price`. -/

/-- Prefix `(?:rs\.?|₹|inr)` (case-insensitive). -/
def dropCurrencyRsInr (cs : List Char) : Option (List Char) :=
  match dropPrefixCI ("rs".toList) cs with
  | some r => some (dropOptChar '.' r)
  | none =>
    match cs with
    | '₹' :: r => some r
    | _ => dropPrefixCI ("inr".toList) cs

/-- Prefix `(?:rs\.?|₹)?` (optional currency marker of patterns b and c). -/
def dropCurrencyRs (cs : List Char) : List Char :=
  match dropPrefixCI ("rs".toList) cs with
  | some r => dropOptChar '.' r
  | none =>
    match cs with
    | '₹' :: r => r
    | _ => cs

/-- Pattern `(?:rs\.?|₹|inr)\s*(NUM)` tried at one position. -/
def priceA_at (cs : List Char) : Option (List Char) :=
  match dropCurrencyRsInr cs with
  | some r => parseNUM (dropSpaces r)
  | none => none

/-- Shared tail `\s*:?\s*(?:rs\.?|₹)?\s*(NUM)` of patterns b and c. -/
def priceTailBC (cs : List Char) : Option (List Char) :=
  let r := dropSpaces (dropOptChar ':' (dropSpaces cs))
  parseNUM (dropSpaces (dropCurrencyRs r))

/-- First keyword of a list that matches at this position (the keyword lists
below are pairwise prefix-disjoint, so at most one alternative can match). -/
def kwAny (kws : List (List Char)) (cs : List Char) : Option (List Char) :=
  match kws with
  | [] => none
  | k :: ks =>
    match dropPrefixCI k cs with
    | some r => some r
    | none => kwAny ks cs

/-- Pattern `(?:amount|price|rate|value)\s*:?\s*(?:rs\.?|₹)?\s*(NUM)` at one position. -/
def priceB_at (cs : List Char) : Option (List Char) :=
  match kwAny ["amount".toList, "price".toList, "rate".toList, "value".toList] cs with
  | some r => priceTailBC r
  | none => none

/-- Pattern `(?:total|subtotal)\s*:?\s*(?:rs\.?|₹)?\s*(NUM)` at one position. -/
def priceC_at (cs : List Char) : Option (List Char) :=
  match kwAny ["total".toList, "subtotal".toList] cs with
  | some r => priceTailBC r
  | none => none

/-- Fallback `\b(NUM)\b` at one position (leading boundary checked by the
caller).  Implements the backtracking of the greedy groups against the
trailing `\b`: first the full match with the dot part, then without it, then
dropping the final comma group (after which the next character is a comma,
hence a boundary).  Shortening a digit run always ends before a digit and can
never produce a boundary. -/
def fallbackAt (cs : List Char) : Option (List Char) :=
  let d := cs.takeWhile isDigitChar
  if d.isEmpty then none
  else
    let r := cs.dropWhile isDigitChar
    let (gs, r2) := commaGroups (r.length + 1) r
    let (dp, r3) := dotPart r2
    if !dp.isEmpty then
      if noWordNext r3 then some (d ++ gs.flatten ++ dp) else some (d ++ gs.flatten)
    else if noWordNext r2 then some (d ++ gs.flatten)
    else
      match gs with
      | [] => none
      | _ => some (d ++ gs.dropLast.flatten)

/-- Model of `BillProcessor._extract_price`. -/
def extract_price (text : String) : Option ℚ :=
  let cs := text.toList
  match scanOpt priceA_at cs with
  | some g => some (numValue g)
  | none =>
  match scanOpt priceB_at cs with
  | some g => some (numValue g)
  | none =>
  match scanOpt priceC_at cs with
  | some g => some (numValue g)
  | none =>
  match scanBound fallbackAt none cs with
  | some g =>
    let price := numValue g
    if mkRat 1 100 ≤ price ∧ price ≤ 10000000 then some price else none
  | none => none

/-! HSN patterns of `BillProcessor.hsn_patterns`. -/

/-- Greedy bounded `(\d{4,8})`. -/
def d48 (cs : List Char) : Option (List Char) :=
  let d := cs.takeWhile isDigitChar
  if d.length < 4 then none else some (d.take 8)

/-- Shared tail `\s*:?\s*(\d{4,8})`. -/
def hsnTail (cs : List Char) : Option (List Char) :=
  d48 (dropSpaces (dropOptChar ':' (dropSpaces cs)))

/-- Pattern `(?:hsn|hsn\s*code)\s*:?\s*(\d{4,8})` at one position (plain
`hsn` alternative tried first, as in the source alternation order). -/
def hsn1_at (cs : List Char) : Option (List Char) :=
  match dropPrefixCI ("hsn".toList) cs with
  | none => none
  | some r =>
    match hsnTail r with
    | some g => some g
    | none =>
      match dropPrefixCI ("code".toList) (dropSpaces r) with
      | some r2 => hsnTail r2
      | none => none

/-- Pattern `hsn[:/\s]*(\d{4,8})` at one position. -/
def hsn2_at (cs : List Char) : Option (List Char) :=
  match dropPrefixCI ("hsn".toList) cs with
  | none => none
  | some r => d48 (r.dropWhile (fun c => c = ':' || c = '/' || isSpaceChar c))

/-- Model of `BillProcessor._extract_hsn_code`. -/
def extract_hsn_code (text : String) : Option String :=
  match scanOpt hsn1_at text.toList with
  | some g => some g.asString
  | none => (scanOpt hsn2_at text.toList).map List.asString

/-! Serial-number patterns of `BillProcessor.serial_patterns` and the generic
alphanumeric-code fallback of `_extract_serial_number`. -/

/-- Class `[A-Z0-9\-]` under `re.IGNORECASE`. -/
def serialClassChar (c : Char) : Bool :=
  ('A' ≤ c && c ≤ 'Z') || ('a' ≤ c && c ≤ 'z') || c.isDigit || c = '-'

/-- Shared tail `\s*:?\s*([A-Z0-9\-]+)` (case-insensitive). -/
def serialGroupTail (cs : List Char) : Option (List Char) :=
  let r := dropSpaces (dropOptChar ':' (dropSpaces cs))
  let g := r.takeWhile serialClassChar
  if g.isEmpty then none else some g

/-- Alternative `serial\s*no\.?` followed by the group tail. -/
def serialAlt1 (cs : List Char) : Option (List Char) :=
  match dropPrefixCI ("serial".toList) cs with
  | none => none
  | some r =>
    match dropPrefixCI ("no".toList) (dropSpaces r) with
    | none => none
    | some r2 => serialGroupTail (dropOptChar '.' r2)

/-- Alternative `s\.?n\.?` followed by the group tail. -/
def serialAlt2 (cs : List Char) : Option (List Char) :=
  match dropPrefixCI ("s".toList) cs with
  | none => none
  | some r =>
    match dropPrefixCI ("n".toList) (dropOptChar '.' r) with
    | none => none
    | some r2 => serialGroupTail (dropOptChar '.' r2)

/-- Alternative `sr\.?\s*no\.?` followed by the group tail. -/
def serialAlt3 (cs : List Char) : Option (List Char) :=
  match dropPrefixCI ("sr".toList) cs with
  | none => none
  | some r =>
    match dropPrefixCI ("no".toList) (dropSpaces (dropOptChar '.' r)) with
    | none => none
    | some r2 => serialGroupTail (dropOptChar '.' r2)

/-- First labelled serial pattern, alternatives in source order. -/
def serial1_at (cs : List Char) : Option (List Char) :=
  serialAlt1 cs <|> serialAlt2 cs <|> serialAlt3 cs

/-- Pattern `(?:item\s*code|product\s*code)\s*:?\s*([A-Z0-9\-]+)` at one position. -/
def serial2_at (cs : List Char) : Option (List Char) :=
  let kw :=
    match dropPrefixCI ("item".toList) cs with
    | some r => dropPrefixCI ("code".toList) (dropSpaces r)
    | none =>
      match dropPrefixCI ("product".toList) cs with
      | some r => dropPrefixCI ("code".toList) (dropSpaces r)
      | none => none
  match kw with
  | some r2 => serialGroupTail r2
  | none => none

/-- Pattern `\b([A-Z]{2,}\d{2,}|\d{2,}[A-Z]{2,})\b` (case-insensitive) at one
position; the leading boundary is checked by `scanBound`.  The bounded runs
are maximal: a shorter run would end before a character of the same class and
fail the following requirement or the trailing boundary. -/
def genericCode_at (cs : List Char) : Option (List Char) :=
  let a := cs.takeWhile isAlphaChar
  let alt1 :=
    if a.length < 2 then none
    else
      let r1 := cs.dropWhile isAlphaChar
      let d := r1.takeWhile isDigitChar
      if d.length < 2 then none
      else if noWordNext (r1.dropWhile isDigitChar) then some (a ++ d) else none
  match alt1 with
  | some g => some g
  | none =>
    let d := cs.takeWhile isDigitChar
    if d.length < 2 then none
    else
      let r1 := cs.dropWhile isDigitChar
      let a2 := r1.takeWhile isAlphaChar
      if a2.length < 2 then none
      else if noWordNext (r1.dropWhile isAlphaChar) then some (d ++ a2) else none

/-- Model of `BillProcessor._extract_serial_number` (labelled patterns are
searched on the lowercased text, the generic code on the original text; the
captured group is uppercased). -/
def extract_serial_number (text : String) : Option String :=
  let lowered := text.toList.map lowerChar
  match scanOpt serial1_at lowered with
  | some g => some (g.map Char.toUpper).asString
  | none =>
  match scanOpt serial2_at lowered with
  | some g => some (g.map Char.toUpper).asString
  | none =>
  match scanBound genericCode_at none text.toList with
  | some g => some (g.map Char.toUpper).asString
  | none => none

/-! Quantity patterns of `BillProcessor.quantity_patterns`. -/

/-- Keyword `(?:qty|quantity|units?|nos?|pcs?|pieces?)` (case-insensitive,
source order; the alternatives are pairwise prefix-disjoint). -/
def qtyKw_at (cs : List Char) : Option (List Char) :=
  dropPrefixCI ("qty".toList) cs <|>
  dropPrefixCI ("quantity".toList) cs <|>
  (dropPrefixCI ("unit".toList) cs).map (dropOptCharCI 's') <|>
  (dropPrefixCI ("no".toList) cs).map (dropOptCharCI 's') <|>
  (dropPrefixCI ("pc".toList) cs).map (dropOptCharCI 's') <|>
  (dropPrefixCI ("piece".toList) cs).map (dropOptCharCI 's')

/-- Pattern `KW\s*:?\s*(\d+)` at one position. -/
def qty1_at (cs : List Char) : Option (List Char) :=
  match qtyKw_at cs with
  | some r =>
    let r2 := dropSpaces (dropOptChar ':' (dropSpaces r))
    let d := r2.takeWhile isDigitChar
    if d.isEmpty then none else some d
  | none => none

/-- Pattern `(\d+)\s*KW` at one position. -/
def qty2_at (cs : List Char) : Option (List Char) :=
  let d := cs.takeWhile isDigitChar
  if d.isEmpty then none
  else
    match qtyKw_at (dropSpaces (cs.dropWhile isDigitChar)) with
    | some _ => some d
    | none => none

/-- Range check `1 <= qty <= 99999` applied to a captured group. -/
def qtyFrom (o : Option (List Char)) : Option Nat :=
  match o with
  | some d =>
    let q := digitsToNat d
    if 1 ≤ q ∧ q ≤ 99999 then some q else none
  | none => none

/-- Model of `BillProcessor._extract_quantity` (a first-pattern match whose
value is out of range falls through to the second pattern, as the source
loop does). -/
def extract_quantity (text : String) : Option Nat :=
  match qtyFrom (scanOpt qty1_at text.toList) with
  | some q => some q
  | none => qtyFrom (scanOpt qty2_at text.toList)

/-! Item-name extraction of `BillProcessor._extract_item_name`. -/

/-- Keyword `(?:item|product|description|particular)` at the string start. -/
def namePrefixKw_at (cs : List Char) : Option (List Char) :=
  dropPrefixCI ("item".toList) cs <|>
  dropPrefixCI ("product".toList) cs <|>
  dropPrefixCI ("description".toList) cs <|>
  dropPrefixCI ("particular".toList) cs

/-- Anchored `re.sub(r'^(?:item|product|description|particular)\s*:?\s*', '', text)`. -/
def stripNamePrefix (cs : List Char) : List Char :=
  match namePrefixKw_at cs with
  | some r => dropSpaces (dropOptChar ':' (dropSpaces r))
  | none => cs

/-- Pattern `(?:hsn|s\.?n\.?)\s*:?\s*\d+` at one position (without its leading
`\b`, which the substitution scanner checks); returns the remainder after the
match. -/
def hsnSnTok_at (cs : List Char) : Option (List Char) :=
  let kw :=
    match dropPrefixCI ("hsn".toList) cs with
    | some r => some r
    | none =>
      match dropPrefixCI ("s".toList) cs with
      | some r => (dropPrefixCI ("n".toList) (dropOptChar '.' r)).map (dropOptChar '.')
      | none => none
  match kw with
  | some r =>
    let r2 := dropSpaces (dropOptChar ':' (dropSpaces r))
    if (r2.takeWhile isDigitChar).isEmpty then none
    else some (r2.dropWhile isDigitChar)
  | none => none

/-- Pattern `(?:rs\.?|₹)\s*\d+` at one position; returns the remainder. -/
def rsTok_at (cs : List Char) : Option (List Char) :=
  let r0 :=
    match dropPrefixCI ("rs".toList) cs with
    | some r => some (dropOptChar '.' r)
    | none =>
      match cs with
      | '₹' :: r => some r
      | _ => none
  match r0 with
  | some r =>
    let r2 := dropSpaces r
    if (r2.takeWhile isDigitChar).isEmpty then none
    else some (r2.dropWhile isDigitChar)
  | none => none

/-- Replace every non-overlapping match by the empty string (`re.sub`).  When
`useB` is set the match must start at a word boundary.  Both patterns end in
a maximal digit run, so after a removal the previous character is a digit;
any digit is passed on as the boundary context. -/
def subAllB (f : List Char → Option (List Char)) (useB : Bool) :
    Nat → Option Char → List Char → List Char
  | 0, _, cs => cs
  | fuel + 1, prev, cs =>
    match cs with
    | [] => []
    | c :: rest =>
      let ok := !useB || (match prev with
        | none => true
        | some p => !isWordChar p)
      match (if ok then f (c :: rest) else none) with
      | some r => subAllB f useB fuel (some '0') r
      | none => c :: subAllB f useB fuel (some c) rest

/-- Model of `BillProcessor._extract_item_name`. -/
def extract_item_name (text : String) : Option String :=
  let t1 := stripChars (stripNamePrefix text.toList)
  if 2 < t1.length then
    if t1.any isAlphaChar then
      let t2 := subAllB hsnSnTok_at true (t1.length + 1) none t1
      let t3 := subAllB rsTok_at false (t2.length + 1) none t2
      let t4 := stripChars t3
      if t4.isEmpty then none else some t4.asString
    else none
  else none

/-! Record model.  A Python item dict: the outer `Option` of each field is
key presence; the inner `Option String` of the identity fields allows a key
stored with value `None`.  `other_price` models the key `bill_type + '_price'`
for a `bill_type` outside `{purchase, sale}`; within one parse call at most
one such key can exist. -/

structure Item where
  serial_number : Option (Option String) := none
  item_name : Option (Option String) := none
  hsn_code : Option (Option String) := none
  quantity : Option Int := none
  purchase_price : Option ℚ := none
  sale_price : Option ℚ := none
  other_price : Option ℚ := none
deriving DecidableEq

/-- Python `item[bill_type + '_price'] = price`. -/
def setRolePrice (it : Item) (bill_type : String) (v : ℚ) : Item :=
  if bill_type = "purchase" then { it with purchase_price := some v }
  else if bill_type = "sale" then { it with sale_price := some v }
  else { it with other_price := some v }

/-- Python `(bill_type + '_price') in item` / `item[bill_type + '_price']`. -/
def rolePriceOf (it : Item) (bill_type : String) : Option ℚ :=
  if bill_type = "purchase" then it.purchase_price
  else if bill_type = "sale" then it.sale_price
  else it.other_price

/-- Model of `BillProcessor._is_valid_item`. -/
def is_valid_item (it : Item) : Bool :=
  (it.item_name.isSome || it.serial_number.isSome || it.hsn_code.isSome) &&
  (it.purchase_price.isSome || it.sale_price.isSome)

/-! Tabular strategy: `_parse_table_row` and `_parse_table_format`. -/

/-- Python `part.isdigit()`. -/
def pyIsDigit (cs : List Char) : Bool := !cs.isEmpty && cs.all isDigitChar

/-- Anchored `re.match(r'^[A-Z0-9\-]+$', part)` (no IGNORECASE here). -/
def matchUpperCode (cs : List Char) : Bool :=
  !cs.isEmpty && cs.all (fun c => ('A' ≤ c && c ≤ 'Z') || c.isDigit || c = '-')

/-- Anchored `re.match(r'^\d{4,8}$', part)`. -/
def isD48Token (cs : List Char) : Bool :=
  cs.all isDigitChar && decide (4 ≤ cs.length) && decide (cs.length ≤ 8)

/-- Anchored `re.match(r'^\d{1,3}$', part)`. -/
def isD13Token (cs : List Char) : Bool :=
  !cs.isEmpty && cs.all isDigitChar && decide (cs.length ≤ 3)

/-- Splitter `re.split(r'\s{2,}|\t', line)`: a maximal whitespace run is a
separator when it has length at least two or is a single tab; a single
non-tab whitespace character stays inside the token. -/
def splitRow : Nat → List Char → List Char → List (List Char)
  | 0, acc, _ => [acc.reverse]
  | fuel + 1, acc, cs =>
    match cs with
    | [] => [acc.reverse]
    | c :: rest =>
      if isSpaceChar c then
        let run := (c :: rest).takeWhile isSpaceChar
        if 2 ≤ run.length ∨ run = ['\t'] then
          acc.reverse :: splitRow fuel [] ((c :: rest).dropWhile isSpaceChar)
        else splitRow fuel (c :: acc) rest
      else splitRow fuel (c :: acc) rest

def splitTableRow (line : List Char) : List (List Char) :=
  splitRow (line.length + 1) [] line

/-- Item-name branch of the `_parse_table_row` token loop (the `elif` taken
when the extracted price is falsy). -/
def nameBranch (it : Item) (part : List Char) : Item :=
  if 3 < part.length ∧ pyIsDigit part = false ∧ it.item_name = none then
    if matchUpperCode part then it
    else { it with item_name := some (some part.asString) }
  else it

/-- Serial check of the `_parse_table_row` token loop (an independent `if`,
only filled when no serial number is set yet). -/
def procPartSerial (it : Item) (part : List Char) : Item :=
  if matchUpperCode part ∧ part.length ≤ 15 then
    if it.serial_number = none then { it with serial_number := some (some part.asString) }
    else it
  else it

/-- HSN check of the token loop (an independent `if` that always overwrites). -/
def procPartHsn (it : Item) (part : List Char) : Item :=
  if isD48Token part then { it with hsn_code := some (some part.asString) } else it

/-- Quantity/price/name tail of the token loop: a token accepted as quantity
short-circuits the price and name checks (`continue`); the price always
overwrites; a price value of `0.0` is falsy and falls through to the name
branch. -/
def procPartRest (bill_type : String) (it2 : Item) (part : List Char) : Item :=
  if isD13Token part = true ∧ it2.quantity = none ∧
      1 ≤ digitsToNat part ∧ digitsToNat part ≤ 999 then
    { it2 with quantity := some (digitsToNat part : Int) }
  else
    match extract_price part.asString with
    | some v => if v ≠ 0 then setRolePrice it2 bill_type v else nameBranch it2 part
    | none => nameBranch it2 part

/-- One iteration of the token loop of `_parse_table_row`. -/
def procPart (bill_type : String) (it : Item) (raw : List Char) : Item :=
  let part := stripChars raw
  if part.isEmpty then it
  else procPartRest bill_type (procPartHsn (procPartSerial it part) part) part

/-- Model of `BillProcessor._parse_table_row` (`item if item else None`). -/
def parse_table_row (line : List Char) (bill_type : String) : Option Item :=
  let it := (splitTableRow line).foldl (procPart bill_type) {}
  if it = ({} : Item) then none else some it

/-- Header detection of `_parse_table_format` (the `header_indices` dict of
the source is written but never read, and is omitted). -/
def headerHasKw (lowered : List Char) : Bool :=
  containsSub ("item".toList) lowered || containsSub ("description".toList) lowered ||
  containsSub ("particular".toList) lowered || containsSub ("product".toList) lowered

/-- Line loop of `_parse_table_format`. -/
def tableLines (bill_type : String) : Bool → List (List Char) → List Item
  | _, [] => []
  | headerFound, l :: rest =>
    let line := stripChars l
    if line.isEmpty then tableLines bill_type headerFound rest
    else if headerFound then
      match parse_table_row line bill_type with
      | some it =>
        if is_valid_item it then it :: tableLines bill_type true rest
        else tableLines bill_type true rest
      | none => tableLines bill_type true rest
    else if headerHasKw (line.map lowerChar) then tableLines bill_type true rest
    else tableLines bill_type false rest

/-- Model of `BillProcessor._parse_table_format`. -/
def parse_table_format (lines : List (List Char)) (bill_type : String) : List Item :=
  tableLines bill_type false lines

/-! Fallback line-by-line strategy of `parse_bill`. -/

/-- Flush of the accumulated record at a blank line. -/
def flushState (st : List Item × Item) : List Item × Item :=
  if st.2 = ({} : Item) then st
  else if is_valid_item st.2 then (st.1 ++ [st.2], ({} : Item))
  else (st.1, ({} : Item))

/-- Serial-number block of the fallback loop: the assignment is guarded by
truthiness of the extracted value and absence of the key. -/
def stepSerial (line : String) (cur : Item) : Item :=
  match extract_serial_number line with
  | some s =>
    if s ≠ "" ∧ cur.serial_number = none then { cur with serial_number := some (some s) }
    else cur
  | none => cur

/-- HSN block of the fallback loop. -/
def stepHsn (line : String) (cur : Item) : Item :=
  match extract_hsn_code line with
  | some h =>
    if h ≠ "" ∧ cur.hsn_code = none then { cur with hsn_code := some (some h) } else cur
  | none => cur

/-- Item-name block of the fallback loop (the extraction is attempted only
when the key is absent, as in the source). -/
def stepName (line : String) (cur : Item) : Item :=
  if cur.item_name = none then
    match extract_item_name line with
    | some n => if n ≠ "" then { cur with item_name := some (some n) } else cur
    | none => cur
  else cur

/-- Quantity block of the fallback loop. -/
def stepQty (line : String) (cur : Item) : Item :=
  match extract_quantity line with
  | some q =>
    if q ≠ 0 ∧ cur.quantity = none then { cur with quantity := some (q : Int) } else cur
  | none => cur

/-- Role-price block of the fallback loop. -/
def stepPrice (bill_type : String) (line : String) (cur : Item) : Item :=
  match extract_price line with
  | some v =>
    if v ≠ 0 ∧ rolePriceOf cur bill_type = none then setRolePrice cur bill_type v else cur
  | none => cur

/-- One line of the fallback loop of `parse_bill`: the five extraction blocks
run in source order on the stripped line; a blank line flushes. -/
def procLine (bill_type : String) (st : List Item × Item) (rawLine : List Char) : List Item × Item :=
  let line := stripChars rawLine
  if line.isEmpty then flushState st
  else
    (st.1, stepPrice bill_type line.asString
      (stepQty line.asString (stepName line.asString
        (stepHsn line.asString (stepSerial line.asString st.2)))))

/-- Model of `BillProcessor.parse_bill`: the tabular strategy wins when it
yields any items, else the fallback loop with a final flush. -/
def parse_bill (text : String) (bill_type : String) : List Item :=
  let lines := splitLines text
  let table_items := parse_table_format lines bill_type
  if table_items ≠ [] then table_items
  else
    let st := lines.foldl (procLine bill_type) ([], {})
    if st.2 ≠ ({} : Item) ∧ is_valid_item st.2 = true then st.1 ++ [st.2] else st.1

/-- Python `str.split()` with no arguments: split on whitespace runs,
dropping empties. -/
def splitWordsAux : List Char → List Char → List (List Char)
  | [], acc => if acc.isEmpty then [] else [acc.reverse]
  | c :: rest, acc =>
    if isSpaceChar c then
      if acc.isEmpty then splitWordsAux rest []
      else acc.reverse :: splitWordsAux rest []
    else splitWordsAux rest (c :: acc)

def splitWords (cs : List Char) : List (List Char) := splitWordsAux cs []

/-- Join words with single spaces: together with `splitWords` this is the
effect of `re.sub(r'\s+', ' ', s).strip()`. -/
def joinWords : List (List Char) → List Char
  | [] => []
  | [w] => w
  | w :: ws => w ++ ' ' :: joinWords ws

/-- Model of `BillProcessor.normalize_item_name` (argument is the dict value,
which may be Python `None`; `if not name` maps both `None` and `""` to `""`). -/
def normalize_item_name (name : Option String) : String :=
  match name with
  | none => ""
  | some s =>
    if s = "" then ""
    else
      let filtered := (s.toList.map lowerChar).filter (fun c => isWordChar c || isSpaceChar c)
      (joinWords (splitWords filtered)).asString

/-! Record matcher (`backend/matcher.py`). -/

/-- Model of `ItemMatcher._similarity_score` (word-set Jaccard similarity;
Python `str.split()` splits on whitespace runs and drops empties, sets are
modelled by deduplicated lists). -/
def similarity_score (str1 str2 : String) : ℚ :=
  if str1 = "" ∨ str2 = "" then 0
  else
    let words1 := ((splitWords str1.toList).map List.asString).dedup
    let words2 := ((splitWords str2.toList).map List.asString).dedup
    if words1 = [] ∨ words2 = [] then 0
    else
      let inter := words1.filter (fun w => decide (w ∈ words2))
      let union := (words1 ++ words2).dedup
      if union = [] then 0 else (inter.length : ℚ) / (union.length : ℚ)

/-- Serial-number block of `_calculate_match_score`: both keys present and
the stored values (possibly Python `None`) compare equal. -/
def serial_contrib (item1 item2 : Item) : ℚ :=
  match item1.serial_number, item2.serial_number with
  | some v1, some v2 => if v1 = v2 then 1 / 2 else 0
  | _, _ => 0

/-- HSN block of `_calculate_match_score`. -/
def hsn_contrib (item1 item2 : Item) : ℚ :=
  match item1.hsn_code, item2.hsn_code with
  | some v1, some v2 => if v1 = v2 then 3 / 10 else 0
  | _, _ => 0

/-- Item-name block of `_calculate_match_score`: exact tier, substring tier
(`0.2 * 0.7`), Jaccard tier (`0.2 * 0.5` when the similarity exceeds `0.8`). -/
def name_contrib (item1 item2 : Item) : ℚ :=
  match item1.item_name, item2.item_name with
  | some v1, some v2 =>
    let name1 := normalize_item_name v1
    let name2 := normalize_item_name v2
    if name1 = name2 then 1 / 5
    else if name1 ≠ "" ∧ name2 ≠ "" ∧
        (containsSub name1.toList name2.toList ∨ containsSub name2.toList name1.toList) then
      1 / 5 * (7 / 10)
    else if 4 / 5 < similarity_score name1 name2 then 1 / 5 * (1 / 2)
    else 0
  | _, _ => 0

/-- Model of `ItemMatcher._calculate_match_score`: the three weighted blocks
added to an initial score of `0`, in source order. -/
def calculate_match_score (item1 item2 : Item) : ℚ :=
  0 + serial_contrib item1 item2 + hsn_contrib item1 item2 + name_contrib item1 item2

/-- Result row of `_create_matched_item` (a plain dict in the source). -/
structure MatchedItemR where
  serial_number : Option String
  item_name : Option String
  hsn_code : Option String
  quantity : Int
  purchase_quantity : Int
  sale_quantity : Int
  quantity_mismatch : Bool
  purchase_price : ℚ
  sale_price : ℚ
  profit_loss : ℚ
  profit_loss_percentage : ℚ
  status : String
deriving DecidableEq

/-- Result row of `_create_unmatched_item` (its dict has no quantity-mismatch
keys, hence a separate structure). -/
structure UnmatchedItemR where
  serial_number : Option String
  item_name : Option String
  hsn_code : Option String
  quantity : Int
  purchase_price : ℚ
  sale_price : ℚ
  profit_loss : ℚ
  profit_loss_percentage : ℚ
  status : String
deriving DecidableEq

/-- Python `item.get(key)`: an absent key and a key stored with `None` both
yield `None`. -/
def dictGetStr (v : Option (Option String)) : Option String := v.getD none

/-- Python `item.get(key, default)`: the stored value is returned as-is when
the key is present, even when that value is `None` or `""`. -/
def dictGetStrD (v : Option (Option String)) (d : String) : Option String :=
  match v with
  | none => some d
  | some x => x

/-- Python truthiness of an optional string. -/
def truthyStr (v : Option String) : Bool :=
  match v with
  | some s => !s.isEmpty
  | none => false

/-- Python `a or b` on optional strings. -/
def pyOrStr (a b : Option String) : Option String := if truthyStr a then a else b

/-- Model of `ItemMatcher._create_matched_item`. -/
def create_matched_item (purchase_item sale_item : Item) : MatchedItemR :=
  let purchase_price := purchase_item.purchase_price.getD 0
  let sale_price := sale_item.sale_price.getD 0
  let profit_loss := sale_price - purchase_price
  let purchase_qty := purchase_item.quantity.getD 1
  let sale_qty := sale_item.quantity.getD 1
  { serial_number := pyOrStr (dictGetStr purchase_item.serial_number)
      (dictGetStrD sale_item.serial_number "N/A")
    item_name := pyOrStr (dictGetStr purchase_item.item_name)
      (dictGetStrD sale_item.item_name "Unknown")
    hsn_code := pyOrStr (dictGetStr purchase_item.hsn_code)
      (dictGetStrD sale_item.hsn_code "N/A")
    quantity := if sale_qty ≠ 0 then sale_qty else purchase_qty
    purchase_quantity := purchase_qty
    sale_quantity := sale_qty
    quantity_mismatch := purchase_qty ≠ sale_qty
    purchase_price := purchase_price
    sale_price := sale_price
    profit_loss := profit_loss
    profit_loss_percentage :=
      if 0 < purchase_price then profit_loss / purchase_price * 100 else 0
    status := "matched" }

/-- Model of `ItemMatcher._create_unmatched_item`. -/
def create_unmatched_item (item : Item) (item_type : String) : UnmatchedItemR :=
  { serial_number := dictGetStrD item.serial_number "N/A"
    item_name := dictGetStrD item.item_name "Unknown"
    hsn_code := dictGetStrD item.hsn_code "N/A"
    quantity := item.quantity.getD 1
    purchase_price := if item_type = "purchase" then item.purchase_price.getD 0 else 0
    sale_price := if item_type = "sale" then item.sale_price.getD 0 else 0
    profit_loss := 0
    profit_loss_percentage := 0
    status := "unmatched_" ++ item_type }

/-- Output of `match_items`. -/
structure MatchResult where
  matched : List MatchedItemR
  unmatched_purchases : List UnmatchedItemR
  unmatched_sales : List UnmatchedItemR
deriving DecidableEq

/-- Best-match scan of one purchase over the remaining sales pool, carrying
`(best_match_score, best_match_idx, best_match)` initialised to `(0, -1, None)`
and updated on a strict `>` comparison, as in the source. -/
def findBestAux (p : Item) : List Item → Int → (ℚ × Int × Option Item) → (ℚ × Int × Option Item)
  | [], _, best => best
  | s :: rest, idx, best =>
    let score := calculate_match_score p s
    findBestAux p rest (idx + 1) (if best.1 < score then (score, idx, some s) else best)

def findBest (p : Item) (sales : List Item) : ℚ × Int × Option Item :=
  findBestAux p sales 0 (0, -1, none)

/-- Purchase loop of `match_items`: on a best score of at least `0.7` the
chosen sale is removed from the pool (`pop(best_match_idx)`); a threshold hit
forces a strictly positive score, so `best_match` is `some` and the index is
in range — the `getD` default is never reached. -/
def matchLoop : List Item → List Item → List MatchedItemR → List UnmatchedItemR → MatchResult
  | [], remaining, matched, unmatchedP =>
    { matched := matched
      unmatched_purchases := unmatchedP
      unmatched_sales := remaining.map (fun s => create_unmatched_item s "sale") }
  | p :: rest, remaining, matched, unmatchedP =>
    let best := findBest p remaining
    if 7 / 10 ≤ best.1 then
      matchLoop rest (remaining.eraseIdx best.2.1.toNat)
        (matched ++ [create_matched_item p (best.2.2.getD {})]) unmatchedP
    else
      matchLoop rest remaining matched (unmatchedP ++ [create_unmatched_item p "purchase"])

/-- Model of `ItemMatcher.match_items`. -/
def match_items (purchase_items sale_items : List Item) : MatchResult :=
  matchLoop purchase_items sale_items [] []

/-! Summary aggregator (`ItemMatcher.calculate_summary`). -/

structure Summary where
  total_matched_items : Nat
  total_unmatched_purchases : Nat
  total_unmatched_sales : Nat
  total_purchase_value : ℚ
  total_sale_value : ℚ
  total_profit_loss : ℚ
  total_profit_loss_percentage : ℚ
  profit_items_count : Nat
  loss_items_count : Nat
  total_unmatched_purchase_value : ℚ
  total_unmatched_sale_value : ℚ
deriving DecidableEq

/-- Model of `ItemMatcher.calculate_summary`. -/
def calculate_summary (matched_results : MatchResult) : Summary :=
  let matched := matched_results.matched
  let unmatched_purchases := matched_results.unmatched_purchases
  let unmatched_sales := matched_results.unmatched_sales
  let total_purchase := (matched.map (·.purchase_price)).sum
  let total_sale := (matched.map (·.sale_price)).sum
  let total_profit_loss := total_sale - total_purchase
  let profit_items := matched.filter (fun i => decide (0 < i.profit_loss))
  let loss_items := matched.filter (fun i => decide (i.profit_loss < 0))
  { total_matched_items := matched.length
    total_unmatched_purchases := unmatched_purchases.length
    total_unmatched_sales := unmatched_sales.length
    total_purchase_value := total_purchase
    total_sale_value := total_sale
    total_profit_loss := total_profit_loss
    total_profit_loss_percentage :=
      if 0 < total_purchase then total_profit_loss / total_purchase * 100 else 0
    profit_items_count := profit_items.length
    loss_items_count := loss_items.length
    total_unmatched_purchase_value := (unmatched_purchases.map (·.purchase_price)).sum
    total_unmatched_sale_value := (unmatched_sales.map (·.sale_price)).sum }

/-! Invariant carried through the extraction loops: any price key that gets
stored is strictly positive and belongs to the parse call's role. -/

def ExtrInv (bill_type : String) (it : Item) : Prop :=
  (∀ v, it.purchase_price = some v → 0 < v ∧ bill_type = "purchase") ∧
  (∀ v, it.sale_price = some v → 0 < v ∧ bill_type = "sale")

/-- State invariant of the fallback loop. -/
def StInv (bill_type : String) (st : List Item × Item) : Prop :=
  (∀ x ∈ st.1, is_valid_item x = true ∧ ExtrInv bill_type x) ∧ ExtrInv bill_type st.2

/-- The record extracted from the two-line tabular scenario bill. -/
def widgetItem : Item :=
  { serial_number := some (some "A1"), item_name := some (some "Widget"),
    hsn_code := some (some "8528"), quantity := some 2, purchase_price := some 500 }

/-! Theorems. -/

lemma findBestAux_spec (p : Item) (sales : List Item) :
    ∀ (idx : Int) (best : ℚ × Int × Option Item),
      0 ≤ idx →
      ((best.2.1 = -1 ∧ best.1 = 0) ∨ (0 ≤ best.2.1 ∧ best.2.1 < idx)) →
      (((findBestAux p sales idx best).2.1 = -1 ∧ (findBestAux p sales idx best).1 = 0) ∨
       (0 ≤ (findBestAux p sales idx best).2.1 ∧
        (findBestAux p sales idx best).2.1 < idx + sales.length)) := by
  induction sales with
  | nil =>
    intro idx best h0 hb
    simpa [findBestAux] using hb
  | cons s rest ih =>
    intro idx best h0 hb
    simp only [findBestAux]
    have h1 : (0:Int) ≤ idx + 1 := by omega
    have hstep :
        ((if best.1 < calculate_match_score p s then (calculate_match_score p s, idx, some s)
          else best).2.1 = -1 ∧
         (if best.1 < calculate_match_score p s then (calculate_match_score p s, idx, some s)
          else best).1 = 0) ∨
        (0 ≤ (if best.1 < calculate_match_score p s then (calculate_match_score p s, idx, some s)
          else best).2.1 ∧
         (if best.1 < calculate_match_score p s then (calculate_match_score p s, idx, some s)
          else best).2.1 < idx + 1) := by
      split
      · exact Or.inr (show (0:Int) ≤ idx ∧ idx < idx + 1 from ⟨h0, by omega⟩)
      · rcases hb with h | h
        · exact Or.inl h
        · exact Or.inr ⟨h.1, by omega⟩
    have := ih (idx + 1) _ h1 hstep
    rcases this with h | h
    · exact Or.inl h
    · refine Or.inr ⟨h.1, ?_⟩
      have hlen : ((s :: rest).length : Int) = (rest.length : Int) + 1 := by
        push_cast [List.length_cons]
        ring
      omega

lemma findBest_idx_lt {p : Item} {sales : List Item}
    (h : 7 / 10 ≤ (findBest p sales).1) :
    (findBest p sales).2.1.toNat < sales.length := by
  have hs := findBestAux_spec p sales 0 (0, -1, none) le_rfl (Or.inl ⟨rfl, rfl⟩)
  rcases hs with ⟨_, h2⟩ | ⟨h1, h2⟩
  · simp only [findBest] at h
    rw [h2] at h
    norm_num at h
  · simp only [findBest] at h1 h2 ⊢
    omega

lemma matchLoop_lengths :
    ∀ (ps rem : List Item) (m : List MatchedItemR) (up : List UnmatchedItemR),
      (matchLoop ps rem m up).matched.length +
          (matchLoop ps rem m up).unmatched_purchases.length =
        m.length + up.length + ps.length ∧
      (matchLoop ps rem m up).matched.length +
          (matchLoop ps rem m up).unmatched_sales.length =
        m.length + rem.length := by
  intro ps
  induction ps with
  | nil =>
    intro rem m up
    simp [matchLoop]
  | cons p rest ih =>
    intro rem m up
    simp only [matchLoop]
    split
    · next hthr =>
      have hlt : (findBest p rem).2.1.toNat < rem.length := findBest_idx_lt hthr
      have herase : (rem.eraseIdx (findBest p rem).2.1.toNat).length = rem.length - 1 :=
        List.length_eraseIdx_of_lt hlt
      obtain ⟨ha, hb⟩ := ih (rem.eraseIdx (findBest p rem).2.1.toNat)
        (m ++ [create_matched_item p ((findBest p rem).2.2.getD {})]) up
      constructor
      · rw [ha]
        simp [List.length_append]
        omega
      · rw [hb, herase]
        simp [List.length_append]
        omega
    · obtain ⟨ha, hb⟩ := ih rem m (up ++ [create_unmatched_item p "purchase"])
      constructor
      · rw [ha]
        simp [List.length_append]
        omega
      · rw [hb]

/-- C2: for every pair of input lists, `match_items` returns a partition with
`len(matched) + len(unmatched_purchases) = len(purchases)` and
`len(matched) + len(unmatched_sales) = len(sales)`; in particular each sale
record is consumed by at most one matched item. -/
theorem match_items_conservation (purchase_items sale_items : List Item) :
    (match_items purchase_items sale_items).matched.length +
        (match_items purchase_items sale_items).unmatched_purchases.length =
      purchase_items.length ∧
    (match_items purchase_items sale_items).matched.length +
        (match_items purchase_items sale_items).unmatched_sales.length =
      sale_items.length := by
  have h := matchLoop_lengths purchase_items sale_items [] []
  simpa [match_items] using h

lemma profit_count_partition (l : List MatchedItemR) :
    (l.filter (fun i => decide (0 < i.profit_loss))).length +
        (l.filter (fun i => decide (i.profit_loss < 0))).length +
        (l.filter (fun i => decide (i.profit_loss = 0))).length =
      l.length := by
  induction l with
  | nil => simp
  | cons a t ih =>
    rcases lt_trichotomy a.profit_loss 0 with h | h | h
    · simp only [List.filter_cons]
      simp [h, not_lt_of_lt h, ne_of_lt h]
      omega
    · simp only [List.filter_cons]
      simp [h]
      omega
    · simp only [List.filter_cons]
      simp [h, not_lt_of_lt h, (ne_of_lt h).symm]
      omega

/-- C7: `calculate_summary` returns a zero percentage whenever the total
purchase value is zero, counts profit items as those with strictly positive
`profit_loss` and loss items as those with strictly negative `profit_loss`,
and zero-profit items count toward neither. -/
theorem calculate_summary_guard_and_counts (matched_results : MatchResult) :
    ((calculate_summary matched_results).total_purchase_value = 0 →
      (calculate_summary matched_results).total_profit_loss_percentage = 0) ∧
    (calculate_summary matched_results).profit_items_count =
      (matched_results.matched.filter (fun i => decide (0 < i.profit_loss))).length ∧
    (calculate_summary matched_results).loss_items_count =
      (matched_results.matched.filter (fun i => decide (i.profit_loss < 0))).length ∧
    (calculate_summary matched_results).profit_items_count +
        (calculate_summary matched_results).loss_items_count +
        (matched_results.matched.filter (fun i => decide (i.profit_loss = 0))).length =
      (calculate_summary matched_results).total_matched_items := by
  refine ⟨?_, rfl, rfl, ?_⟩
  · intro h
    simp only [calculate_summary] at h ⊢
    rw [h]
    norm_num
  · simpa [calculate_summary] using profit_count_partition matched_results.matched

/-- Witness for C7 at a concrete matcher output with zero purchase total. -/
theorem calculate_summary_guard_witness :
    (calculate_summary ⟨[], [], []⟩).total_profit_loss_percentage = 0 :=
  (calculate_summary_guard_and_counts ⟨[], [], []⟩).1 (by decide)

/-- C9: identifier values that are present but empty still earn exact-match
credit in `_calculate_match_score`: two records both carrying an `hsn_code`
key with the empty-string value (the provider normalization's output for a
missing HSN) collect the full `0.3` weight, and two `item_name` values that
normalize to the empty string compare equal under the exact tier and collect
the full `0.2` weight; the total score is the sum of the three blocks. -/
theorem empty_values_earn_credit :
    (∀ item1 item2 : Item, item1.hsn_code = some (some "") →
      item2.hsn_code = some (some "") → hsn_contrib item1 item2 = 3 / 10) ∧
    (∀ (item1 item2 : Item) (v1 v2 : Option String),
      item1.item_name = some v1 → item2.item_name = some v2 →
      normalize_item_name v1 = "" → normalize_item_name v2 = "" →
      name_contrib item1 item2 = 1 / 5) ∧
    (∀ item1 item2 : Item, calculate_match_score item1 item2 =
      serial_contrib item1 item2 + hsn_contrib item1 item2 + name_contrib item1 item2) := by
  refine ⟨?_, ?_, ?_⟩
  · intro item1 item2 h1 h2
    simp [hsn_contrib, h1, h2]
  · intro item1 item2 v1 v2 h1 h2 he1 he2
    simp [name_contrib, h1, h2, he1, he2]
  · intro item1 item2
    simp [calculate_match_score]

/-- Witness for C9: a provider-normalized pair with empty HSN strings and
names that normalize to the empty string earns `0.3 + 0.2`. -/
theorem empty_values_earn_credit_witness :
    hsn_contrib { hsn_code := some (some ""), item_name := some (some "!!") }
        { hsn_code := some (some ""), item_name := some none } = 3 / 10 ∧
    name_contrib { hsn_code := some (some ""), item_name := some (some "!!") }
        { hsn_code := some (some ""), item_name := some none } = 1 / 5 :=
  ⟨empty_values_earn_credit.1 _ _ rfl rfl,
   empty_values_earn_credit.2.1 _ _ (some "!!") none rfl rfl (by decide) (by decide)⟩

/-- C5 counterexample: `_create_matched_item` resolves by Python truthiness
and `dict.get` returns a stored `None` as-is, so a purchase record without a
serial key matched to a sale record whose `serial_number` key holds `None`
(exactly what `_parse_json_items` produces when no serial field is present)
yields a matched item whose `serial_number` is null, not the "N/A"
placeholder — refuting "the resolved identifying fields are never null". -/
theorem create_matched_item_null_field :
    (create_matched_item ({} : Item)
        { serial_number := some none, sale_price := some 10 }).serial_number = none := by
  decide

/-- C5 amended: each identifying field of `_create_matched_item` equals the
purchase record's value when that value is present and truthy (a non-empty
string); otherwise the sale record's stored value verbatim whenever the sale
dict carries the key (even when that value is null or empty); otherwise the
literal placeholder ("N/A" for serial number and HSN code, "Unknown" for the
item name).  Resolved fields can therefore be null or empty when the sale
record stores such a value. -/
theorem create_matched_item_resolution (purchase_item sale_item : Item) :
    ((∀ v : String, purchase_item.serial_number = some (some v) → v ≠ "" →
        (create_matched_item purchase_item sale_item).serial_number = some v) ∧
     (truthyStr (dictGetStr purchase_item.serial_number) = false →
        ∀ w, sale_item.serial_number = some w →
          (create_matched_item purchase_item sale_item).serial_number = w) ∧
     (truthyStr (dictGetStr purchase_item.serial_number) = false →
        sale_item.serial_number = none →
          (create_matched_item purchase_item sale_item).serial_number = some "N/A")) ∧
    ((∀ v : String, purchase_item.item_name = some (some v) → v ≠ "" →
        (create_matched_item purchase_item sale_item).item_name = some v) ∧
     (truthyStr (dictGetStr purchase_item.item_name) = false →
        ∀ w, sale_item.item_name = some w →
          (create_matched_item purchase_item sale_item).item_name = w) ∧
     (truthyStr (dictGetStr purchase_item.item_name) = false →
        sale_item.item_name = none →
          (create_matched_item purchase_item sale_item).item_name = some "Unknown")) ∧
    ((∀ v : String, purchase_item.hsn_code = some (some v) → v ≠ "" →
        (create_matched_item purchase_item sale_item).hsn_code = some v) ∧
     (truthyStr (dictGetStr purchase_item.hsn_code) = false →
        ∀ w, sale_item.hsn_code = some w →
          (create_matched_item purchase_item sale_item).hsn_code = w) ∧
     (truthyStr (dictGetStr purchase_item.hsn_code) = false →
        sale_item.hsn_code = none →
          (create_matched_item purchase_item sale_item).hsn_code = some "N/A")) := by
  refine ⟨⟨?_, ?_, ?_⟩, ⟨?_, ?_, ?_⟩, ⟨?_, ?_, ?_⟩⟩ <;>
    simp only [create_matched_item]
  · intro v hv hne
    simp [pyOrStr, dictGetStr, truthyStr, hv, String.isEmpty_iff, hne]
  · intro ht w hw
    simp [pyOrStr, ht, dictGetStrD, hw]
  · intro ht hw
    simp [pyOrStr, ht, dictGetStrD, hw]
  · intro v hv hne
    simp [pyOrStr, dictGetStr, truthyStr, hv, String.isEmpty_iff, hne]
  · intro ht w hw
    simp [pyOrStr, ht, dictGetStrD, hw]
  · intro ht hw
    simp [pyOrStr, ht, dictGetStrD, hw]
  · intro v hv hne
    simp [pyOrStr, dictGetStr, truthyStr, hv, String.isEmpty_iff, hne]
  · intro ht w hw
    simp [pyOrStr, ht, dictGetStrD, hw]
  · intro ht hw
    simp [pyOrStr, ht, dictGetStrD, hw]

/-- Witness for the amended C5 at concrete records: a truthy purchase value
wins, and with no keys on either side the placeholder appears. -/
theorem create_matched_item_resolution_witness :
    (create_matched_item ({ serial_number := some (some "A1") } : Item)
        { serial_number := some (some "Z9") }).serial_number = some "A1" ∧
    (create_matched_item ({} : Item) ({} : Item)).serial_number = some "N/A" :=
  ⟨(create_matched_item_resolution { serial_number := some (some "A1") }
      { serial_number := some (some "Z9") }).1.1 "A1" rfl (by decide),
   (create_matched_item_resolution {} {}).1.2.2 (by decide) rfl⟩

lemma serial_contrib_range (item1 item2 : Item) :
    serial_contrib item1 item2 = 0 ∨ serial_contrib item1 item2 = 1 / 2 := by
  unfold serial_contrib
  split
  · split
    · exact Or.inr rfl
    · exact Or.inl rfl
  · exact Or.inl rfl

lemma hsn_contrib_range (item1 item2 : Item) :
    hsn_contrib item1 item2 = 0 ∨ hsn_contrib item1 item2 = 3 / 10 := by
  unfold hsn_contrib
  split
  · split
    · exact Or.inr rfl
    · exact Or.inl rfl
  · exact Or.inl rfl

lemma name_contrib_le (item1 item2 : Item) :
    0 ≤ name_contrib item1 item2 ∧ name_contrib item1 item2 ≤ 1 / 5 := by
  unfold name_contrib
  split
  · dsimp only
    split_ifs <;> norm_num
  · norm_num

/-- C1 counterexample: serial numbers present and equal and a non-zero name
contribution from the substring tier (`0.14`) give a total of `0.64`, which
does not reach the `0.7` threshold — refuting "any non-zero name
contribution" in the claim; only the exact tier suffices. -/
theorem serial_plus_substring_below_threshold :
    ({ serial_number := some (some "A1"), item_name := some (some "alpha") } : Item).serial_number
        = ({ serial_number := some (some "A1"), item_name := some (some "alpha beta") } : Item).serial_number ∧
    name_contrib { serial_number := some (some "A1"), item_name := some (some "alpha") }
        { serial_number := some (some "A1"), item_name := some (some "alpha beta") } = 7 / 50 ∧
    calculate_match_score { serial_number := some (some "A1"), item_name := some (some "alpha") }
        { serial_number := some (some "A1"), item_name := some (some "alpha beta") } = 16 / 25 ∧
    calculate_match_score { serial_number := some (some "A1"), item_name := some (some "alpha") }
        { serial_number := some (some "A1"), item_name := some (some "alpha beta") } < 7 / 10 := by
  have hna : normalize_item_name (some "alpha") = "alpha" := by decide
  have hnb : normalize_item_name (some "alpha beta") = "alpha beta" := by decide
  have hn : name_contrib { serial_number := some (some "A1"), item_name := some (some "alpha") }
      { serial_number := some (some "A1"), item_name := some (some "alpha beta") } = 1 / 5 * (7 / 10) := by
    simp only [name_contrib, hna, hnb]
    rw [if_neg (by decide), if_pos]
    exact ⟨by decide, by decide, Or.inl (by decide)⟩
  have hs : serial_contrib { serial_number := some (some "A1"), item_name := some (some "alpha") }
      { serial_number := some (some "A1"), item_name := some (some "alpha beta") } = 1 / 2 := by
    simp [serial_contrib]
  have hh : hsn_contrib { serial_number := some (some "A1"), item_name := some (some "alpha") }
      { serial_number := some (some "A1"), item_name := some (some "alpha beta") } = 0 := by
    simp [hsn_contrib]
  refine ⟨rfl, by rw [hn]; norm_num, ?_, ?_⟩ <;>
    simp only [calculate_match_score, hn, hs, hh] <;> norm_num

/-- C1 amended: serial-number agreement (`0.5`) plus an exact-tier name
contribution (`0.2`) reaches the `0.7` threshold; serial agreement plus only
a substring-tier (`0.14`) or Jaccard-tier (`0.10`) name contribution totals
at most `0.64` and stays below the threshold; and any single block alone
(serial `0.5`, HSN `0.3`, or name at most `0.2`) stays below `0.7`. -/
theorem match_score_threshold :
    (∀ item1 item2 : Item, serial_contrib item1 item2 = 1 / 2 →
      name_contrib item1 item2 = 1 / 5 →
      7 / 10 ≤ calculate_match_score item1 item2) ∧
    (∀ item1 item2 : Item, serial_contrib item1 item2 = 1 / 2 →
      hsn_contrib item1 item2 = 0 → name_contrib item1 item2 ≤ 7 / 50 →
      calculate_match_score item1 item2 < 7 / 10) ∧
    (∀ item1 item2 : Item,
      (hsn_contrib item1 item2 = 0 ∧ name_contrib item1 item2 = 0) ∨
      (serial_contrib item1 item2 = 0 ∧ name_contrib item1 item2 = 0) ∨
      (serial_contrib item1 item2 = 0 ∧ hsn_contrib item1 item2 = 0) →
      calculate_match_score item1 item2 < 7 / 10) := by
  refine ⟨?_, ?_, ?_⟩
  · intro item1 item2 hs hn
    have hh := hsn_contrib_range item1 item2
    unfold calculate_match_score
    rw [hs, hn]
    rcases hh with h | h <;> rw [h] <;> norm_num
  · intro item1 item2 hs hh hn
    have hn0 := (name_contrib_le item1 item2).1
    unfold calculate_match_score
    rw [hs, hh]
    linarith
  · intro item1 item2 hcases
    have hsr := serial_contrib_range item1 item2
    have hhr := hsn_contrib_range item1 item2
    have hnr := name_contrib_le item1 item2
    unfold calculate_match_score
    rcases hcases with ⟨h1, h2⟩ | ⟨h1, h2⟩ | ⟨h1, h2⟩
    · rw [h1, h2]
      rcases hsr with h | h <;> rw [h] <;> norm_num
    · rw [h1, h2]
      rcases hhr with h | h <;> rw [h] <;> norm_num
    · rw [h1, h2]
      linarith [hnr.2]

/-- Witness for the amended C1: serial plus exact name reaches the
threshold on a concrete pair; an HSN-only pair stays below it. -/
theorem match_score_threshold_witness :
    7 / 10 ≤ calculate_match_score
        { serial_number := some (some "A1"), item_name := some (some "TV") }
        { serial_number := some (some "A1"), item_name := some (some "tv!") } ∧
    calculate_match_score ({ hsn_code := some (some "8528") } : Item)
        { hsn_code := some (some "8528") } < 7 / 10 :=
  ⟨match_score_threshold.1 _ _ (by simp [serial_contrib])
      (by
        have h1 : normalize_item_name (some "TV") = "tv" := by decide
        have h2 : normalize_item_name (some "tv!") = "tv" := by decide
        simp [name_contrib, h1, h2]),
   match_score_threshold.2.2 _ _
      (Or.inr (Or.inl ⟨by simp [serial_contrib], by simp [name_contrib]⟩))⟩

/-- C4: the two-line tabular text with header `S.No  Item  HSN  Qty  Rate`
and data row `A1   Widget   8528   2   ₹500`, parsed with role `purchase`,
yields exactly one record with serial number `A1`, item name `Widget`, HSN
code `8528`, quantity `2` and purchase price `500.0` (the bare token `8528`
is first stored as the price via the fallback number rule, then overwritten
by the `₹500` token). -/
theorem parse_bill_table_scenario :
    parse_bill "S.No  Item  HSN  Qty  Rate\nA1   Widget   8528   2   ₹500" "purchase" =
      [widgetItem] := by
  decide

lemma numValue_nonneg (g : List Char) : 0 ≤ numValue g := by
  unfold numValue
  dsimp only
  split
  · rw [Rat.mkRat_eq_div]
    positivity
  · positivity

lemma extract_price_nonneg {text : String} {v : ℚ}
    (h : extract_price text = some v) : 0 ≤ v := by
  unfold extract_price at h
  dsimp only at h
  split at h
  · injection h with h'
    exact h' ▸ numValue_nonneg _
  · split at h
    · injection h with h'
      exact h' ▸ numValue_nonneg _
    · split at h
      · injection h with h'
        exact h' ▸ numValue_nonneg _
      · split at h
        · split at h
          · injection h with h'
            exact h' ▸ numValue_nonneg _
          · exact absurd h (by simp)
        · exact absurd h (by simp)

lemma extrInv_empty (bt : String) : ExtrInv bt ({} : Item) :=
  ⟨fun _ hv => Option.noConfusion hv, fun _ hv => Option.noConfusion hv⟩

lemma extrInv_congr {bt : String} {a b : Item}
    (hp : b.purchase_price = a.purchase_price) (hs : b.sale_price = a.sale_price)
    (h : ExtrInv bt a) : ExtrInv bt b :=
  ⟨fun v hv => h.1 v (hp ▸ hv), fun v hv => h.2 v (hs ▸ hv)⟩

lemma setRolePrice_extrInv {bt : String} {it : Item} {v : ℚ}
    (hv : 0 < v) (h : ExtrInv bt it) : ExtrInv bt (setRolePrice it bt v) := by
  unfold setRolePrice
  split_ifs with h1 h2
  · refine ⟨fun w hw => ?_, fun w hw => h.2 w hw⟩
    have hw' : some v = some w := hw
    cases hw'
    exact ⟨hv, h1⟩
  · refine ⟨fun w hw => h.1 w hw, fun w hw => ?_⟩
    have hw' : some v = some w := hw
    cases hw'
    exact ⟨hv, h2⟩
  · exact ⟨fun w hw => h.1 w hw, fun w hw => h.2 w hw⟩

lemma nameBranch_prices (it : Item) (part : List Char) :
    (nameBranch it part).purchase_price = it.purchase_price ∧
    (nameBranch it part).sale_price = it.sale_price := by
  unfold nameBranch
  split_ifs <;> exact ⟨rfl, rfl⟩

lemma procPartSerial_prices (it : Item) (part : List Char) :
    (procPartSerial it part).purchase_price = it.purchase_price ∧
    (procPartSerial it part).sale_price = it.sale_price := by
  unfold procPartSerial
  split_ifs <;> exact ⟨rfl, rfl⟩

lemma procPartHsn_prices (it : Item) (part : List Char) :
    (procPartHsn it part).purchase_price = it.purchase_price ∧
    (procPartHsn it part).sale_price = it.sale_price := by
  unfold procPartHsn
  split_ifs <;> exact ⟨rfl, rfl⟩

lemma procPartRest_extrInv {bt : String} {it2 : Item} {part : List Char}
    (h : ExtrInv bt it2) : ExtrInv bt (procPartRest bt it2 part) := by
  unfold procPartRest
  split_ifs with hc
  · exact extrInv_congr rfl rfl h
  · split
    · next v heq =>
      split_ifs with hv
      · exact setRolePrice_extrInv
          (lt_of_le_of_ne (extract_price_nonneg heq) (Ne.symm hv)) h
      · exact extrInv_congr (nameBranch_prices _ _).1 (nameBranch_prices _ _).2 h
    · exact extrInv_congr (nameBranch_prices _ _).1 (nameBranch_prices _ _).2 h

lemma procPart_extrInv {bt : String} {it : Item} {raw : List Char}
    (h : ExtrInv bt it) : ExtrInv bt (procPart bt it raw) := by
  unfold procPart
  dsimp only
  split
  · exact h
  · exact procPartRest_extrInv (extrInv_congr
      (by rw [(procPartHsn_prices _ _).1, (procPartSerial_prices _ _).1])
      (by rw [(procPartHsn_prices _ _).2, (procPartSerial_prices _ _).2]) h)

lemma foldl_procPart_extrInv (bt : String) (parts : List (List Char)) :
    ∀ {it : Item}, ExtrInv bt it → ExtrInv bt (parts.foldl (procPart bt) it) := by
  induction parts with
  | nil => intro it h; exact h
  | cons p rest ih => intro it h; exact ih (procPart_extrInv h)

lemma parse_table_row_extrInv {line : List Char} {bt : String} {it : Item}
    (h : parse_table_row line bt = some it) : ExtrInv bt it := by
  unfold parse_table_row at h
  dsimp only at h
  split at h
  · exact absurd h (by simp)
  · injection h with h'
    exact h' ▸ foldl_procPart_extrInv bt _ (extrInv_empty bt)

lemma tableLines_mem {bt : String} {it : Item} {ls : List (List Char)} :
    ∀ {hf : Bool}, it ∈ tableLines bt hf ls →
      is_valid_item it = true ∧ ExtrInv bt it := by
  induction ls with
  | nil =>
    intro hf h
    simp [tableLines] at h
  | cons l rest ih =>
    intro hf h
    unfold tableLines at h
    dsimp only at h
    split at h
    · exact ih h
    · split at h
      · split at h
        · next it0 hrow =>
          split at h
          · next hvalid =>
            rcases List.mem_cons.mp h with rfl | hmem
            · exact ⟨hvalid, parse_table_row_extrInv hrow⟩
            · exact ih hmem
          · exact ih h
        · exact ih h
      · split at h
        · exact ih h
        · exact ih h

lemma stepSerial_rest (line : String) (cur : Item) :
    (stepSerial line cur).hsn_code = cur.hsn_code ∧
    (stepSerial line cur).item_name = cur.item_name ∧
    (stepSerial line cur).quantity = cur.quantity ∧
    (stepSerial line cur).purchase_price = cur.purchase_price ∧
    (stepSerial line cur).sale_price = cur.sale_price ∧
    (stepSerial line cur).other_price = cur.other_price := by
  unfold stepSerial
  split
  · split_ifs <;> exact ⟨rfl, rfl, rfl, rfl, rfl, rfl⟩
  · exact ⟨rfl, rfl, rfl, rfl, rfl, rfl⟩

lemma stepHsn_rest (line : String) (cur : Item) :
    (stepHsn line cur).serial_number = cur.serial_number ∧
    (stepHsn line cur).item_name = cur.item_name ∧
    (stepHsn line cur).quantity = cur.quantity ∧
    (stepHsn line cur).purchase_price = cur.purchase_price ∧
    (stepHsn line cur).sale_price = cur.sale_price ∧
    (stepHsn line cur).other_price = cur.other_price := by
  unfold stepHsn
  split
  · split_ifs <;> exact ⟨rfl, rfl, rfl, rfl, rfl, rfl⟩
  · exact ⟨rfl, rfl, rfl, rfl, rfl, rfl⟩

lemma stepName_rest (line : String) (cur : Item) :
    (stepName line cur).serial_number = cur.serial_number ∧
    (stepName line cur).hsn_code = cur.hsn_code ∧
    (stepName line cur).quantity = cur.quantity ∧
    (stepName line cur).purchase_price = cur.purchase_price ∧
    (stepName line cur).sale_price = cur.sale_price ∧
    (stepName line cur).other_price = cur.other_price := by
  unfold stepName
  split_ifs
  · split
    · split_ifs <;> exact ⟨rfl, rfl, rfl, rfl, rfl, rfl⟩
    · exact ⟨rfl, rfl, rfl, rfl, rfl, rfl⟩
  · exact ⟨rfl, rfl, rfl, rfl, rfl, rfl⟩

lemma stepQty_rest (line : String) (cur : Item) :
    (stepQty line cur).serial_number = cur.serial_number ∧
    (stepQty line cur).hsn_code = cur.hsn_code ∧
    (stepQty line cur).item_name = cur.item_name ∧
    (stepQty line cur).purchase_price = cur.purchase_price ∧
    (stepQty line cur).sale_price = cur.sale_price ∧
    (stepQty line cur).other_price = cur.other_price := by
  unfold stepQty
  split
  · split_ifs <;> exact ⟨rfl, rfl, rfl, rfl, rfl, rfl⟩
  · exact ⟨rfl, rfl, rfl, rfl, rfl, rfl⟩

lemma setRolePrice_fields (it : Item) (bt : String) (v : ℚ) :
    (setRolePrice it bt v).serial_number = it.serial_number ∧
    (setRolePrice it bt v).hsn_code = it.hsn_code ∧
    (setRolePrice it bt v).item_name = it.item_name ∧
    (setRolePrice it bt v).quantity = it.quantity := by
  unfold setRolePrice
  split_ifs <;> exact ⟨rfl, rfl, rfl, rfl⟩

lemma stepPrice_rest (bt line : String) (cur : Item) :
    (stepPrice bt line cur).serial_number = cur.serial_number ∧
    (stepPrice bt line cur).hsn_code = cur.hsn_code ∧
    (stepPrice bt line cur).item_name = cur.item_name ∧
    (stepPrice bt line cur).quantity = cur.quantity := by
  unfold stepPrice
  split
  · split_ifs
    · exact setRolePrice_fields _ _ _
    · exact ⟨rfl, rfl, rfl, rfl⟩
  · exact ⟨rfl, rfl, rfl, rfl⟩

lemma stepPrice_extrInv {bt line : String} {cur : Item}
    (h : ExtrInv bt cur) : ExtrInv bt (stepPrice bt line cur) := by
  unfold stepPrice
  split
  · next v heq =>
    split_ifs with hc
    · exact setRolePrice_extrInv
        (lt_of_le_of_ne (extract_price_nonneg heq) (Ne.symm hc.1)) h
    · exact h
  · exact h

lemma flushState_stInv {bt : String} {st : List Item × Item}
    (h : StInv bt st) : StInv bt (flushState st) := by
  unfold flushState
  split_ifs with h1 h2
  · exact h
  · refine ⟨?_, extrInv_empty bt⟩
    intro x hx
    rcases List.mem_append.mp hx with hx | hx
    · exact h.1 x hx
    · rw [List.mem_singleton] at hx
      subst hx
      exact ⟨h2, h.2⟩
  · exact ⟨h.1, extrInv_empty bt⟩

lemma procLine_stInv {bt : String} {st : List Item × Item} {l : List Char}
    (h : StInv bt st) : StInv bt (procLine bt st l) := by
  unfold procLine
  dsimp only
  split
  · exact flushState_stInv h
  · refine ⟨h.1, ?_⟩
    apply stepPrice_extrInv
    refine extrInv_congr ?_ ?_ h.2
    · rw [(stepQty_rest _ _).2.2.2.1, (stepName_rest _ _).2.2.2.1,
        (stepHsn_rest _ _).2.2.2.1, (stepSerial_rest _ _).2.2.2.1]
    · rw [(stepQty_rest _ _).2.2.2.2.1, (stepName_rest _ _).2.2.2.2.1,
        (stepHsn_rest _ _).2.2.2.2.1, (stepSerial_rest _ _).2.2.2.2.1]

lemma foldl_procLine_stInv (bt : String) (lines : List (List Char)) :
    ∀ st : List Item × Item, StInv bt st →
      StInv bt (lines.foldl (procLine bt) st) := by
  induction lines with
  | nil => intro st h; exact h
  | cons l rest ih => intro st h; exact ih _ (procLine_stInv h)

lemma parse_bill_mem {text bt : String} {it : Item}
    (h : it ∈ parse_bill text bt) : is_valid_item it = true ∧ ExtrInv bt it := by
  unfold parse_bill at h
  dsimp only at h
  split at h
  · exact tableLines_mem h
  · have hst := foldl_procLine_stInv bt (splitLines text) ([], ({} : Item))
      ⟨fun x hx => absurd hx (List.not_mem_nil x), extrInv_empty bt⟩
    split at h
    · next hcond =>
      rcases List.mem_append.mp h with hx | hx
      · exact hst.1 it hx
      · rw [List.mem_singleton] at hx
        subst hx
        exact ⟨hcond.2, hst.2⟩
    · exact hst.1 it h

/-- C3: every record returned by `parse_bill` (for role purchase or sale,
from either strategy) has at least one of item name / serial number / HSN
code present, and carries the role price key with a strictly positive value
(prices are only stored when the extracted value is truthy, and extracted
prices are non-negative). -/
theorem parse_bill_validity (text role : String)
    (hrole : role = "purchase" ∨ role = "sale") :
    ∀ it ∈ parse_bill text role,
      (it.item_name.isSome = true ∨ it.serial_number.isSome = true ∨
        it.hsn_code.isSome = true) ∧
      ∃ v, rolePriceOf it role = some v ∧ 0 < v := by
  intro it hit
  obtain ⟨hval, hinv⟩ := parse_bill_mem hit
  unfold is_valid_item at hval
  simp only [Bool.and_eq_true, Bool.or_eq_true] at hval
  refine ⟨or_assoc.mp hval.1, ?_⟩
  rcases hval.2 with hp | hs
  · obtain ⟨v, hv⟩ := Option.isSome_iff_exists.mp hp
    obtain ⟨hpos, hbt⟩ := hinv.1 v hv
    subst hbt
    exact ⟨v, by rw [rolePriceOf, if_pos rfl]; exact hv, hpos⟩
  · obtain ⟨v, hv⟩ := Option.isSome_iff_exists.mp hs
    obtain ⟨hpos, hbt⟩ := hinv.2 v hv
    subst hbt
    exact ⟨v, by rw [rolePriceOf, if_neg (by decide), if_pos rfl]; exact hv, hpos⟩

/-- Witness for C3 on the concrete tabular bill of the C4 scenario. -/
theorem parse_bill_validity_witness :
    (widgetItem.item_name.isSome = true ∨ widgetItem.serial_number.isSome = true ∨
      widgetItem.hsn_code.isSome = true) ∧
    ∃ v, rolePriceOf widgetItem "purchase" = some v ∧ 0 < v :=
  parse_bill_validity "S.No  Item  HSN  Qty  Rate\nA1   Widget   8528   2   ₹500"
    "purchase" (Or.inl rfl) widgetItem (by decide)

/-- C6 counterexample: `parse_bill` called with the non-existent role
`refund` does not raise and does not return an error value — it returns the
ordinary empty list, on the very text that parses to a record under the
valid role `purchase`. -/
theorem parse_bill_unknown_role_silent :
    parse_bill "Item: Widget\nrs 500" "refund" = ([] : List Item) ∧
    parse_bill "Item: Widget\nrs 500" "purchase" ≠ [] := by
  constructor
  · decide
  · decide

/-- C6 amended: `parse_bill` with a role outside `{purchase, sale}` neither
raises nor returns an explicit error; it silently returns the empty list
(the price can only be stored under the key `role + '_price'`, so no
candidate record can pass the validity check). -/
theorem parse_bill_unknown_role_empty (text role : String)
    (h1 : role ≠ "purchase") (h2 : role ≠ "sale") :
    parse_bill text role = [] := by
  by_contra hne
  obtain ⟨it, hit⟩ := List.exists_mem_of_ne_nil _ hne
  obtain ⟨hval, hinv⟩ := parse_bill_mem hit
  unfold is_valid_item at hval
  simp only [Bool.and_eq_true, Bool.or_eq_true] at hval
  rcases hval.2 with hp | hs
  · obtain ⟨v, hv⟩ := Option.isSome_iff_exists.mp hp
    exact h1 (hinv.1 v hv).2
  · obtain ⟨v, hv⟩ := Option.isSome_iff_exists.mp hs
    exact h2 (hinv.2 v hv).2

/-- Witness for the amended C6 at a concrete text and role. -/
theorem parse_bill_unknown_role_empty_witness :
    parse_bill "Total: rs 250" "banana" = [] :=
  parse_bill_unknown_role_empty "Total: rs 250" "banana" (by decide) (by decide)

lemma nameBranch_fields (it : Item) (part : List Char) :
    (nameBranch it part).serial_number = it.serial_number ∧
    (nameBranch it part).hsn_code = it.hsn_code ∧
    (nameBranch it part).quantity = it.quantity := by
  unfold nameBranch
  split_ifs <;> exact ⟨rfl, rfl, rfl⟩

lemma procPartRest_hsn (bt : String) (it2 : Item) (part : List Char) :
    (procPartRest bt it2 part).hsn_code = it2.hsn_code := by
  unfold procPartRest
  split_ifs
  · rfl
  · split
    · split_ifs
      · exact (setRolePrice_fields _ _ _).2.1
      · exact (nameBranch_fields _ _).2.1
    · exact (nameBranch_fields _ _).2.1

lemma procPartSerial_quantity (it : Item) (part : List Char) :
    (procPartSerial it part).quantity = it.quantity := by
  unfold procPartSerial
  split_ifs <;> rfl

lemma procPartHsn_quantity (it : Item) (part : List Char) :
    (procPartHsn it part).quantity = it.quantity := by
  unfold procPartHsn
  split_ifs <;> rfl

lemma rolePriceOf_setRolePrice (it : Item) (bt : String) (v : ℚ) :
    rolePriceOf (setRolePrice it bt v) bt = some v := by
  unfold rolePriceOf setRolePrice
  split_ifs <;> rfl

lemma rolePriceOf_congr {a b : Item} (bt : String)
    (hp : b.purchase_price = a.purchase_price) (hs : b.sale_price = a.sale_price)
    (ho : b.other_price = a.other_price) : rolePriceOf b bt = rolePriceOf a bt := by
  unfold rolePriceOf
  split_ifs <;> assumption

lemma isD48_nonempty {cs : List Char} (h : isD48Token cs = true) :
    cs.isEmpty = false := by
  unfold isD48Token at h
  simp only [Bool.and_eq_true, decide_eq_true_eq] at h
  cases cs with
  | nil => simp at h
  | cons c rest => rfl

lemma stepSerial_preserve {line : String} {cur : Item} {x : Option String}
    (h : cur.serial_number = some x) :
    (stepSerial line cur).serial_number = some x := by
  unfold stepSerial
  split
  · split_ifs with hc
    · rw [h] at hc
      exact absurd hc.2 (by simp)
    · exact h
  · exact h

lemma stepHsn_preserve {line : String} {cur : Item} {x : Option String}
    (h : cur.hsn_code = some x) :
    (stepHsn line cur).hsn_code = some x := by
  unfold stepHsn
  split
  · split_ifs with hc
    · rw [h] at hc
      exact absurd hc.2 (by simp)
    · exact h
  · exact h

lemma stepName_preserve {line : String} {cur : Item} {x : Option String}
    (h : cur.item_name = some x) :
    (stepName line cur).item_name = some x := by
  unfold stepName
  rw [if_neg (by rw [h]; simp)]
  exact h

lemma stepQty_preserve {line : String} {cur : Item} {x : Int}
    (h : cur.quantity = some x) :
    (stepQty line cur).quantity = some x := by
  unfold stepQty
  split
  · split_ifs with hc
    · rw [h] at hc
      exact absurd hc.2 (by simp)
    · exact h
  · exact h

lemma stepPrice_rolePrice_preserve {bt line : String} {cur : Item} {x : ℚ}
    (h : rolePriceOf cur bt = some x) :
    rolePriceOf (stepPrice bt line cur) bt = some x := by
  unfold stepPrice
  split
  · split_ifs with hc
    · rw [h] at hc
      exact absurd hc.2 (by simp)
    · exact h
  · exact h

/-- C8: in the tabular strategy a token matching `^\d{4,8}$` always
overwrites the HSN code of the accumulating row record, and a token that
yields a truthy price and is not consumed as the quantity always overwrites
the role price; in the fallback line-by-line strategy, each of the five
fields of the accumulating record, once set, is preserved unchanged by every
further non-blank line (first occurrence wins until the record is flushed). -/
theorem table_overwrites_fallback_first_wins :
    (∀ (bill_type : String) (it : Item) (raw : List Char),
      isD48Token (stripChars raw) = true →
      (procPart bill_type it raw).hsn_code = some (some (stripChars raw).asString)) ∧
    (∀ (bill_type : String) (it : Item) (raw : List Char) (v : ℚ),
      extract_price (stripChars raw).asString = some v → v ≠ 0 →
      ¬(isD13Token (stripChars raw) = true ∧ it.quantity = none ∧
        1 ≤ digitsToNat (stripChars raw) ∧ digitsToNat (stripChars raw) ≤ 999) →
      rolePriceOf (procPart bill_type it raw) bill_type = some v) ∧
    (∀ (bill_type : String) (st : List Item × Item) (l : List Char),
      (stripChars l).isEmpty = false →
      (∀ x, st.2.serial_number = some x →
        (procLine bill_type st l).2.serial_number = some x) ∧
      (∀ x, st.2.hsn_code = some x →
        (procLine bill_type st l).2.hsn_code = some x) ∧
      (∀ x, st.2.item_name = some x →
        (procLine bill_type st l).2.item_name = some x) ∧
      (∀ x, st.2.quantity = some x →
        (procLine bill_type st l).2.quantity = some x) ∧
      (∀ x, rolePriceOf st.2 bill_type = some x →
        rolePriceOf (procLine bill_type st l).2 bill_type = some x)) := by
  refine ⟨?_, ?_, ?_⟩
  · intro bill_type it raw hd
    have hne : (stripChars raw).isEmpty = false := isD48_nonempty hd
    unfold procPart
    dsimp only
    rw [if_neg (by rw [hne]; exact Bool.false_ne_true)]
    rw [procPartRest_hsn]
    unfold procPartHsn
    rw [if_pos hd]
  · intro bill_type it raw v hp hv hq
    have hne : (stripChars raw).isEmpty = false := by
      cases hsc : stripChars raw with
      | nil =>
        rw [hsc] at hp
        have h0 : extract_price (List.asString []) = none := by decide
        rw [h0] at hp
        exact Option.noConfusion hp
      | cons c cs => rfl
    unfold procPart
    dsimp only
    rw [if_neg (by rw [hne]; exact Bool.false_ne_true)]
    unfold procPartRest
    rw [if_neg (by rw [procPartHsn_quantity, procPartSerial_quantity]; exact hq)]
    rw [hp]
    dsimp only
    rw [if_pos hv]
    exact rolePriceOf_setRolePrice _ _ _
  · intro bill_type st l hne
    unfold procLine
    dsimp only
    rw [if_neg (by rw [hne]; exact Bool.false_ne_true)]
    refine ⟨?_, ?_, ?_, ?_, ?_⟩
    · intro x hx
      rw [(stepPrice_rest _ _ _).1, (stepQty_rest _ _).1, (stepName_rest _ _).1,
        (stepHsn_rest _ _).1]
      exact stepSerial_preserve hx
    · intro x hx
      rw [(stepPrice_rest _ _ _).2.1, (stepQty_rest _ _).2.1, (stepName_rest _ _).2.1]
      exact stepHsn_preserve (by rw [(stepSerial_rest _ _).1]; exact hx)
    · intro x hx
      rw [(stepPrice_rest _ _ _).2.2.1, (stepQty_rest _ _).2.2.1]
      exact stepName_preserve (by
        rw [(stepHsn_rest _ _).2.1, (stepSerial_rest _ _).2.1]
        exact hx)
    · intro x hx
      rw [(stepPrice_rest _ _ _).2.2.2]
      exact stepQty_preserve (by
        rw [(stepName_rest _ _).2.2.1, (stepHsn_rest _ _).2.2.1,
          (stepSerial_rest _ _).2.2.1]
        exact hx)
    · intro x hx
      apply stepPrice_rolePrice_preserve
      rw [rolePriceOf_congr bill_type (stepQty_rest _ _).2.2.2.1
          (stepQty_rest _ _).2.2.2.2.1 (stepQty_rest _ _).2.2.2.2.2,
        rolePriceOf_congr bill_type (stepName_rest _ _).2.2.2.1
          (stepName_rest _ _).2.2.2.2.1 (stepName_rest _ _).2.2.2.2.2,
        rolePriceOf_congr bill_type (stepHsn_rest _ _).2.2.2.1
          (stepHsn_rest _ _).2.2.2.2.1 (stepHsn_rest _ _).2.2.2.2.2,
        rolePriceOf_congr bill_type (stepSerial_rest _ _).2.2.2.1
          (stepSerial_rest _ _).2.2.2.2.1 (stepSerial_rest _ _).2.2.2.2.2]
      exact hx

/-- Witness for C8: a later HSN token overwrites a stored HSN code, a later
price token overwrites a stored price, and a non-blank line preserves an
already-set serial number in the fallback loop. -/
theorem table_overwrites_fallback_first_wins_witness :
    (procPart "purchase" ({ hsn_code := some (some "1111") } : Item) "8528".toList).hsn_code
        = some (some "8528") ∧
    rolePriceOf (procPart "purchase" ({ purchase_price := some 42 } : Item) "₹500".toList)
        "purchase" = some 500 ∧
    (procLine "purchase" ([], { serial_number := some (some "A1") })
        "rs 500".toList).2.serial_number = some (some "A1") :=
  ⟨table_overwrites_fallback_first_wins.1 "purchase" _ _ (by decide),
   table_overwrites_fallback_first_wins.2.1 "purchase" _ _ 500 (by decide) (by decide)
     (by decide),
   (table_overwrites_fallback_first_wins.2.2 "purchase"
       ([], { serial_number := some (some "A1") }) "rs 500".toList (by decide)).1
     (some "A1") rfl⟩

lemma digit_val {c : Char} (h : isDigitChar c = true) :
    48 ≤ c.val.toNat ∧ c.val.toNat ≤ 57 := by
  unfold isDigitChar Char.isDigit at h
  simp only [Bool.and_eq_true, decide_eq_true_eq] at h
  exact ⟨h.1, h.2⟩

lemma digit_toLower {c : Char} (h : isDigitChar c = true) : lowerChar c = c := by
  have hv := digit_val h
  have hno : ¬(Char.toNat c ≥ 65 ∧ Char.toNat c ≤ 90) := by
    intro hc
    have h65 : (65 : Nat) ≤ c.val.toNat := hc.1
    omega
  unfold lowerChar Char.toLower
  dsimp only
  rw [if_neg hno]

lemma digit_ne_char {c k : Char} (hd : isDigitChar c = true)
    (hk : isDigitChar k = false) : c ≠ k := by
  intro he
  subst he
  rw [hd] at hk
  exact Bool.noConfusion hk

lemma digit_lower_ne {c k : Char} (hd : isDigitChar c = true)
    (hk : isDigitChar k = false) : lowerChar c ≠ k := by
  rw [digit_toLower hd]
  exact digit_ne_char hd hk

lemma digit_not_space {c : Char} (h : isDigitChar c = true) :
    isSpaceChar c = false := by
  cases hb : isSpaceChar c
  · rfl
  · exfalso
    unfold isSpaceChar at hb
    simp only [Bool.or_eq_true, decide_eq_true_eq] at hb
    rcases hb with ((((h1 | h1) | h1) | h1) | h1) | h1 <;> (try subst h1) <;>
      exact absurd h (by decide)

lemma takeWhile_all_digits {p : Char → Bool} :
    ∀ {l : List Char}, (∀ c ∈ l, p c = true) →
      l.takeWhile p = l ∧ l.dropWhile p = [] := by
  intro l
  induction l with
  | nil => intro _; exact ⟨rfl, rfl⟩
  | cons c rest ih =>
    intro h
    have hc : p c = true := h c (List.mem_cons_self c rest)
    have := ih (fun x hx => h x (List.mem_cons_of_mem c hx))
    constructor
    · unfold List.takeWhile
      rw [hc]
      dsimp only
      rw [this.1]
    · unfold List.dropWhile
      rw [hc]
      dsimp only
      rw [this.2]

lemma dropWhile_none {p : Char → Bool} {l : List Char}
    (h : ∀ c ∈ l, p c = false) : l.dropWhile p = l := by
  cases l with
  | nil => rfl
  | cons c rest =>
    unfold List.dropWhile
    rw [h c (List.mem_cons_self c rest)]

lemma stripChars_digits {ds : List Char} (h : ∀ c ∈ ds, isDigitChar c = true) :
    stripChars ds = ds := by
  unfold stripChars
  rw [dropWhile_none (fun c hc => digit_not_space (h c hc))]
  rw [dropWhile_none (fun c hc => digit_not_space (h c (List.mem_reverse.mp hc)))]
  exact List.reverse_reverse ds

lemma dropPrefixCI_digit_head {k : Char} {ks : List Char} {c : Char} {cs : List Char}
    (hd : isDigitChar c = true) (hk : isDigitChar k = false) :
    dropPrefixCI (k :: ks) (c :: cs) = none := by
  unfold dropPrefixCI
  rw [if_neg (digit_lower_ne hd hk)]

lemma dropCurrencyRsInr_digit {c : Char} {cs : List Char} (h : isDigitChar c = true) :
    dropCurrencyRsInr (c :: cs) = none := by
  unfold dropCurrencyRsInr
  rw [show ("rs".toList) = 'r' :: 's' :: [] from rfl,
    dropPrefixCI_digit_head h (by decide)]
  dsimp only
  split
  · next r heq =>
    injection heq with h1 _
    exact absurd (h1 ▸ h) (by decide)
  · rw [show ("inr".toList) = 'i' :: 'n' :: 'r' :: [] from rfl]
    exact dropPrefixCI_digit_head h (by decide)

lemma priceA_at_digit {c : Char} {cs : List Char} (h : isDigitChar c = true) :
    priceA_at (c :: cs) = none := by
  unfold priceA_at
  rw [dropCurrencyRsInr_digit h]

lemma priceB_at_digit {c : Char} {cs : List Char} (h : isDigitChar c = true) :
    priceB_at (c :: cs) = none := by
  have h1 : dropPrefixCI ("amount".toList) (c :: cs) = none := by
    rw [show ("amount".toList) = 'a' :: "mount".toList from rfl]
    exact dropPrefixCI_digit_head h (by decide)
  have h2 : dropPrefixCI ("price".toList) (c :: cs) = none := by
    rw [show ("price".toList) = 'p' :: "rice".toList from rfl]
    exact dropPrefixCI_digit_head h (by decide)
  have h3 : dropPrefixCI ("rate".toList) (c :: cs) = none := by
    rw [show ("rate".toList) = 'r' :: "ate".toList from rfl]
    exact dropPrefixCI_digit_head h (by decide)
  have h4 : dropPrefixCI ("value".toList) (c :: cs) = none := by
    rw [show ("value".toList) = 'v' :: "alue".toList from rfl]
    exact dropPrefixCI_digit_head h (by decide)
  unfold priceB_at
  simp only [kwAny, h1, h2, h3, h4]

lemma priceC_at_digit {c : Char} {cs : List Char} (h : isDigitChar c = true) :
    priceC_at (c :: cs) = none := by
  have h1 : dropPrefixCI ("total".toList) (c :: cs) = none := by
    rw [show ("total".toList) = 't' :: "otal".toList from rfl]
    exact dropPrefixCI_digit_head h (by decide)
  have h2 : dropPrefixCI ("subtotal".toList) (c :: cs) = none := by
    rw [show ("subtotal".toList) = 's' :: "ubtotal".toList from rfl]
    exact dropPrefixCI_digit_head h (by decide)
  unfold priceC_at
  simp only [kwAny, h1, h2]

lemma scanOpt_none_digits {f : List Char → Option (List Char)}
    (hf : ∀ (c : Char) (cs : List Char), isDigitChar c = true → f (c :: cs) = none) :
    ∀ {ds : List Char}, (∀ c ∈ ds, isDigitChar c = true) → scanOpt f ds = none := by
  intro ds
  induction ds with
  | nil => intro _; rfl
  | cons c rest ih =>
    intro hall
    unfold scanOpt
    rw [hf c rest (hall c (List.mem_cons_self c rest))]
    exact ih (fun x hx => hall x (List.mem_cons_of_mem c hx))

lemma fallbackAt_digits {ds : List Char} (hne : ds ≠ [])
    (h : ∀ c ∈ ds, isDigitChar c = true) : fallbackAt ds = some ds := by
  obtain ⟨htake, hdrop⟩ := takeWhile_all_digits h
  have hne' : ds.isEmpty = false := by
    cases ds
    · exact absurd rfl hne
    · rfl
  unfold fallbackAt
  dsimp only
  rw [htake, hdrop, hne']
  dsimp only [commaGroups, dotPart, noWordNext]
  simp

lemma scanBound_fallback_digits {ds : List Char} (hne : ds ≠ [])
    (h : ∀ c ∈ ds, isDigitChar c = true) :
    scanBound fallbackAt none ds = some ds := by
  cases ds with
  | nil => exact absurd rfl hne
  | cons c rest =>
    unfold scanBound
    simp [fallbackAt_digits (List.cons_ne_nil c rest) h]

lemma numValue_digits {ds : List Char} (h : ∀ c ∈ ds, isDigitChar c = true) :
    numValue ds = (digitsToNat ds : ℚ) := by
  have hfil : ds.filter (fun c => decide (c ≠ ',')) = ds := by
    rw [List.filter_eq_self]
    intro a ha
    simp only [decide_eq_true_eq]
    exact digit_ne_char (h a ha) (by decide)
  obtain ⟨htake, hdrop⟩ := takeWhile_all_digits h
  unfold numValue
  dsimp only
  rw [hfil, htake, hdrop]

lemma extract_price_digits {ds : List Char} (hne : ds ≠ [])
    (h : ∀ c ∈ ds, isDigitChar c = true)
    (hlo : 1 ≤ digitsToNat ds) (hhi : digitsToNat ds ≤ 10000000) :
    extract_price ds.asString = some ((digitsToNat ds : ℚ)) := by
  have hts : (List.asString ds).toList = ds := rfl
  unfold extract_price
  rw [hts]
  dsimp only
  rw [scanOpt_none_digits (fun c cs hc => priceA_at_digit hc) h]
  rw [scanOpt_none_digits (fun c cs hc => priceB_at_digit hc) h]
  rw [scanOpt_none_digits (fun c cs hc => priceC_at_digit hc) h]
  rw [scanBound_fallback_digits hne h]
  dsimp only
  rw [numValue_digits h]
  rw [if_pos]
  constructor
  · rw [Rat.mkRat_eq_div]
    have h1 : (1 : ℚ) ≤ (digitsToNat ds : ℚ) := by exact_mod_cast hlo
    norm_num
    linarith
  · exact_mod_cast hhi

lemma matchUpperCode_digits {ds : List Char} (hne : ds ≠ [])
    (h : ∀ c ∈ ds, isDigitChar c = true) : matchUpperCode ds = true := by
  unfold matchUpperCode
  simp only [Bool.and_eq_true, List.all_eq_true]
  constructor
  · cases ds
    · exact absurd rfl hne
    · rfl
  · intro c hc
    have hd := h c hc
    unfold isDigitChar at hd
    simp [hd]

lemma isD48_digits {ds : List Char} (h : ∀ c ∈ ds, isDigitChar c = true)
    (h4 : 4 ≤ ds.length) (h8 : ds.length ≤ 8) : isD48Token ds = true := by
  unfold isD48Token
  simp only [Bool.and_eq_true, List.all_eq_true, decide_eq_true_eq]
  exact ⟨⟨h, h4⟩, h8⟩

lemma isD13_false_of_len {ds : List Char} (h4 : 4 ≤ ds.length) :
    isD13Token ds = false := by
  cases hb : isD13Token ds
  · rfl
  · exfalso
    unfold isD13Token at hb
    simp only [Bool.and_eq_true, decide_eq_true_eq] at hb
    omega

lemma splitRow_nospace :
    ∀ (fuel : Nat) (acc cs : List Char), cs.length < fuel →
      (∀ c ∈ cs, isSpaceChar c = false) →
      splitRow fuel acc cs = [acc.reverse ++ cs] := by
  intro fuel
  induction fuel with
  | zero =>
    intro acc cs h _
    omega
  | succ n ih =>
    intro acc cs hlen hall
    cases cs with
    | nil =>
      unfold splitRow
      simp
    | cons c rest =>
      unfold splitRow
      dsimp only
      rw [if_neg (by rw [hall c (List.mem_cons_self c rest)]; exact Bool.false_ne_true)]
      rw [ih (c :: acc) rest (by simpa using hlen)
        (fun x hx => hall x (List.mem_cons_of_mem c hx))]
      simp

lemma splitTableRow_digits {ds : List Char} (h : ∀ c ∈ ds, isDigitChar c = true) :
    splitTableRow ds = [ds] := by
  unfold splitTableRow
  rw [splitRow_nospace (ds.length + 1) [] ds (by omega)
    (fun c hc => digit_not_space (h c hc))]
  simp

/-- C10: the token checks of `_parse_table_row` are not mutually exclusive —
a single 4-to-8-digit token on a row with no serial number yet is stored at
once as the serial number, as the HSN code, and (through the bare-number
fallback of the price rule, for a numeric value in the accepted range) as the
role price, so the one-token row already yields a record passing the
validity check, with no quantity and no item name. -/
theorem parse_table_row_digit_token (role : String)
    (hrole : role = "purchase" ∨ role = "sale") (ds : List Char)
    (hd : ∀ c ∈ ds, isDigitChar c = true) (h4 : 4 ≤ ds.length) (h8 : ds.length ≤ 8)
    (hlo : 1 ≤ digitsToNat ds) (hhi : digitsToNat ds ≤ 10000000) :
    ∃ it : Item, parse_table_row ds role = some it ∧
      it.serial_number = some (some ds.asString) ∧
      it.hsn_code = some (some ds.asString) ∧
      it.item_name = none ∧ it.quantity = none ∧
      rolePriceOf it role = some ((digitsToNat ds : ℚ)) ∧
      is_valid_item it = true := by
  have hne : ds ≠ [] := by
    intro he
    subst he
    simp at h4
  have hne' : ds.isEmpty = false := by
    cases ds
    · exact absurd rfl hne
    · rfl
  have hpp : procPart role ({} : Item) ds =
      setRolePrice { serial_number := some (some ds.asString),
                     hsn_code := some (some ds.asString) } role ((digitsToNat ds : ℚ)) := by
    unfold procPart
    dsimp only
    rw [stripChars_digits hd, if_neg (by rw [hne']; exact Bool.false_ne_true)]
    unfold procPartSerial
    rw [if_pos ⟨matchUpperCode_digits hne hd, by omega⟩, if_pos rfl]
    unfold procPartHsn
    rw [if_pos (isD48_digits hd h4 h8)]
    unfold procPartRest
    rw [if_neg (by
      intro hc
      rw [isD13_false_of_len h4] at hc
      exact Bool.noConfusion hc.1)]
    rw [extract_price_digits hne hd hlo hhi]
    dsimp only
    rw [if_pos (by
      intro h0
      have : digitsToNat ds = 0 := by exact_mod_cast h0
      omega)]
  refine Exists.intro
    (setRolePrice
      { serial_number := some (some ds.asString), hsn_code := some (some ds.asString) }
      role ((digitsToNat ds : ℚ)))
    ⟨?_, ?_, ?_, ?_, ?_, ?_, ?_⟩
  · unfold parse_table_row
    dsimp only
    rw [splitTableRow_digits hd]
    rw [List.foldl_cons, List.foldl_nil, hpp]
    rw [if_neg (by
      intro heq
      have hser := congrArg Item.serial_number heq
      rw [(setRolePrice_fields _ _ _).1] at hser
      exact Option.noConfusion hser)]
  · rw [(setRolePrice_fields _ _ _).1]
  · rw [(setRolePrice_fields _ _ _).2.1]
  · rw [(setRolePrice_fields _ _ _).2.2.1]
  · rw [(setRolePrice_fields _ _ _).2.2.2]
  · exact rolePriceOf_setRolePrice _ _ _
  · rcases hrole with hr | hr <;> subst hr <;>
      simp [is_valid_item, setRolePrice]

/-- Witness for C10 at the concrete token `8528`. -/
theorem parse_table_row_digit_token_witness :
    ∃ it : Item, parse_table_row ("8528".toList) "purchase" = some it ∧
      it.serial_number = some (some ("8528".toList).asString) ∧
      it.hsn_code = some (some ("8528".toList).asString) ∧
      it.item_name = none ∧ it.quantity = none ∧
      rolePriceOf it "purchase" = some ((digitsToNat ("8528".toList) : ℚ)) ∧
      is_valid_item it = true :=
  parse_table_row_digit_token "purchase" (Or.inl rfl) ("8528".toList)
    (by decide) (by decide) (by decide) (by decide) (by decide)

end BillMatcher
